import Mathlib

/-!
Verification development for the go-decimal package (decimal.go, helpers.go,
errors.go).  The Go code is shallowly embedded: `uint64` values are `Nat`
together with explicit `% 2^64` wrapping at every operation where the Go
code can wrap, fallible functions return an error component, and the
in-place mutation of the receiver is modelled by returning the final states
of both operands.
-/

namespace GoDecimal

/-- `2^64`, the modulus of Go's `uint64` arithmetic. -/
def U : Nat := 18446744073709551616

/-- Go `uint64` addition (wraps modulo `2^64`). -/
def addW (x y : Nat) : Nat := (x + y) % U

/-- Go `uint64` subtraction `x - y` (wraps modulo `2^64`).  For
`x, y < U` this is exactly the two's-complement result. -/
def subW (x y : Nat) : Nat := (x + (U - y % U)) % U

/-- Go `uint64` multiplication (wraps modulo `2^64`). -/
def mulW (x y : Nat) : Nat := (x * y) % U

/-- Models Go's `uint64(math.Pow10(k))`.  `math.Pow10 k` is the exact
float64 `10^k` for `k ≤ 22`, and the conversion to `uint64` is exact for
`k ≤ 19` (then `10^k < 2^64`).  For `k ≥ 20` the conversion overflows and
Go's result is implementation-specific; the model takes `10^k` and the
theorems below only depend on exponents `≤ 19` (or on the product being
multiplied by zero). -/
def pow10 (k : Nat) : Nat := 10 ^ k

/-- Models `printedLength` (helpers.go): the number of base-10 digits
needed to print `n`, `1` for `n = 0`.  The Go code computes this as
`int(math.Floor(math.Log10(float64(n))) + 1)`, which is intended to equal
the exact digit count; the float64 pipeline cannot be exact over the full
`uint64` range (settled by the C7 theorem below via `toFloat64Int`), and
this model is the exact digit count the code documents and the rest of the
package relies on. -/
def printedLength (n : Nat) : Nat := (Nat.toDigits 10 n).length

/-- Fuel-indexed loop body of `simplifyNumber`: repeatedly divide by 10
while the value is `≥ 10` and divisible by 10.  Fuel `n` is enough for the
starting value `n`, since each step strictly divides. -/
def stripZerosAux : Nat → Nat → Nat
  | 0, n => n
  | fuel+1, n => if 10 ≤ n ∧ n % 10 = 0 then stripZerosAux fuel (n / 10) else n

/-- The trailing-zero stripping loop of `simplifyNumber` (helpers.go). -/
def stripZeros (n : Nat) : Nat := stripZerosAux n n

/-- Models `simplifyNumber` (helpers.go): strip trailing zero digits and
return the reduced value together with its printed length. -/
def simplifyNumber (n : Nat) : Nat × Nat := (stripZeros n, printedLength (stripZeros n))

/-- The error kinds surfaced by the package (errors.go): `ErrSyntax`,
`ErrRange` and `ErrNotValid`. -/
inductive Err where
  | malformed
  | outOfRange
  | notValid
deriving DecidableEq, Repr

/-- The `Decimal` struct (decimal.go).  `numerator` and `denominator` are
`uint64` in Go (always `< U` for any value the package constructs);
`denominatorDigits` is a Go `int` that the package only ever sets to
non-negative values. -/
structure Decimal where
  Valid : Bool
  Negative : Bool
  numerator : Nat
  denominator : Nat
  denominatorDigits : Nat
deriving DecidableEq, Repr

/-- Models `Cmp` (decimal.go): lexicographic comparison of
`(numerator, denominator)` with sign handling; different signs are decided
by sign alone. -/
def Cmp (d1 d2 : Decimal) : Int :=
  if d1.Negative = d2.Negative then
    if d1.numerator = d2.numerator ∧ d1.denominator = d2.denominator then 0
    else
      let r : Int :=
        if d2.numerator < d1.numerator ∨
            (d1.numerator = d2.numerator ∧ d2.denominator < d1.denominator) then 1
        else -1
      if d1.Negative then -r else r
  else if d1.Negative then -1 else 1

/-- The "Ensure equal length denominators" step shared by `Add` and `Sub`:
returns the (possibly rescaled) working copy of `d1`, the (possibly
rescaled) local copy `d2Denominator` of `d2`'s denominator, and the local
`d2DenomDigits`.  Note that `d2` itself is never modified. -/
def align (c d2 : Decimal) : Decimal × Nat × Nat :=
  if d2.denominatorDigits < c.denominatorDigits then
    (c, mulW d2.denominator (pow10 (c.denominatorDigits - d2.denominatorDigits)),
      c.denominatorDigits)
  else if c.denominatorDigits < d2.denominatorDigits then
    ({c with denominator := mulW c.denominator (pow10 (d2.denominatorDigits - c.denominatorDigits)),
             denominatorDigits := d2.denominatorDigits},
      d2.denominator, d2.denominatorDigits)
  else (c, d2.denominator, d2.denominatorDigits)

/-- The "Zero is not negative" normalization at the end of `Add`. -/
def zeroFix (c : Decimal) : Decimal :=
  if c.numerator = 0 ∧ c.denominator = 0 ∧ c.Negative = true then
    {c with Negative := false}
  else c

/-- The final "simplify the number" step of `Add` and `Sub`. -/
def commit (c : Decimal) : Decimal :=
  {c with denominator := (simplifyNumber c.denominator).1,
          denominatorDigits := (simplifyNumber c.denominator).2}

/-- Models `Add` (decimal.go).  The result is `(error?, final d1, final d2)`:
the Go method mutates its receiver `d1` in place (staged on `d1copy`,
committed only on success) and temporarily flips `d2.Negative` in the
differing-signs branch, restoring it before any return. -/
def Add (d1 d2 : Decimal) : Option Err × Decimal × Decimal :=
  if !d1.Valid || !d2.Valid then (some .notValid, d1, d2)
  else if addW d1.denominator d2.denominator < d1.denominator then (some .outOfRange, d1, d2)
  else if addW d1.numerator d2.numerator < d1.numerator then (some .outOfRange, d1, d2)
  else
    let A := align d1 d2
    let c := A.1
    let d2Den := A.2.1
    let d2DD := A.2.2
    if c.Negative = d2.Negative then
      let c1 := {c with denominator := addW c.denominator d2Den,
                        numerator := addW c.numerator d2.numerator}
      if d2DD < printedLength c1.denominator then
        let m := pow10 c1.denominatorDigits
        let c2 := {c1 with numerator := addW c1.numerator (c1.denominator / m),
                           denominator := c1.denominator % m}
        if c2.numerator < c1.numerator then (some .outOfRange, d1, d2)
        else (none, commit (zeroFix c2), d2)
      else (none, commit (zeroFix c1), d2)
    else
      let neg1 := c.Negative
      let cf := {c with Negative := false}
      let df := {d2 with Negative := false}
      let c1 :=
        if 0 ≤ Cmp cf df then
          {cf with denominator := subW cf.denominator d2Den,
                   numerator := subW cf.numerator d2.numerator,
                   Negative := neg1}
        else
          {cf with denominator := subW d2Den cf.denominator,
                   numerator := subW d2.numerator cf.numerator,
                   Negative := !neg1}
      (none, commit (zeroFix c1), d2)

/-- Models `Sub` (decimal.go).  When both operands are non-negative the
receiver is reduced in place (alignment, comparison, borrow); otherwise the
call is delegated to `Add` with `d2.Negative` temporarily set to
`d1.Negative` and restored afterwards.  Note two faithful details of the
source: in the `Cmp ≥ 0` branch the *unaligned* `d2.denominator` is
subtracted (not the aligned local `d2Denominator`), and the borrow step
computes `10^digits - (maxUint64 - den) - 1` in wrapping arithmetic. -/
def Sub (d1 d2 : Decimal) : Option Err × Decimal × Decimal :=
  if !d1.Valid || !d2.Valid then (some .notValid, d1, d2)
  else if !d1.Negative && !d2.Negative then
    let A := align d1 d2
    let c := A.1
    let d2Den := A.2.1
    let c1 :=
      if 0 ≤ Cmp c d2 then
        let cA := {c with denominator := subW c.denominator d2.denominator,
                          numerator := subW c.numerator d2.numerator}
        if c.denominator < cA.denominator then
          {cA with denominator := subW (subW (pow10 cA.denominatorDigits % U)
                                             (subW (U - 1) cA.denominator)) 1,
                   numerator := subW cA.numerator 1}
        else cA
      else
        {c with denominator := subW d2Den c.denominator,
                numerator := subW d2.numerator c.numerator,
                Negative := !c.Negative}
    (none, commit c1, d2)
  else
    let d2f := {d2 with Negative := d1.Negative}
    let R := Add d1 d2f
    (R.1, R.2.1, {R.2.2 with Negative := d2.Negative})

/-- State of the digit-folding loop of `ParseDecimal`.  `dd = none` models
the Go sentinel `denominatorDigits == -1` (no separator seen yet). -/
structure PState where
  num : Nat
  den : Nat
  dd : Option Nat
  valid : Bool
deriving DecidableEq, Repr

/-- The character loop of `ParseDecimal` (decimal.go), with the default
decimal separator `'.'`.  Each digit is folded into the active accumulator
as `acc*10 + digit` in wrapping `uint64` arithmetic, guarded by the
source's wrap-around test `newN < acc`. -/
def parseLoop : List Char → PState → Except Err PState
  | [], st => .ok st
  | ch :: rest, st =>
    if '0' ≤ ch ∧ ch ≤ '9' then
      let v := ch.toNat - '0'.toNat
      match st.dd with
      | none =>
        let newN := addW (mulW st.num 10) v
        if newN < st.num then .error .outOfRange
        else parseLoop rest {st with num := newN, valid := true}
      | some k =>
        let newN := addW (mulW st.den 10) v
        if newN < st.den then .error .outOfRange
        else parseLoop rest {st with den := newN, dd := some (k+1), valid := true}
    else if ch = '.' then
      match st.dd with
      | some _ => .error .malformed
      | none => parseLoop rest {st with dd := some 0}
    else .error .malformed

/-- Models `ParseDecimal` (decimal.go) on the character list of the input
string. -/
def ParseDecimal (s : List Char) : Except Err Decimal :=
  match s with
  | [] => .error .malformed
  | _ =>
    let p : Bool × List Char :=
      match s with
      | '+' :: r => (false, r)
      | '-' :: r => (true, r)
      | r => (false, r)
    match parseLoop p.2 ⟨0, 0, none, false⟩ with
    | .error e => .error e
    | .ok st =>
      if st.valid then
        let neg := if st.num = 0 ∧ st.den = 0 ∧ p.1 = true then false else p.1
        .ok ⟨true, neg, st.num, st.den, st.dd.getD 0⟩
      else .error .malformed

/-- A string of `n` copies of `'0'`, used for `fmt`'s zero padding. -/
def zeroPad (n : Nat) : String := String.mk (List.replicate n '0')

/-- Decimal rendering of a `Nat`, as Go's `fmt` verb `%d`. -/
def natStr (n : Nat) : String := String.mk (Nat.toDigits 10 n)

/-- Models `String` (decimal.go) with the default separator: the verb
`%d%c%0‹digits›d`, i.e. the denominator is left-padded with zeros to
`denominatorDigits` characters (never truncated). -/
def DecString (d : Decimal) : String :=
  (if d.Negative then "-" else "") ++ natStr d.numerator ++ "." ++
    zeroPad (d.denominatorDigits - (natStr d.denominator).length) ++ natStr d.denominator

/-- Fuel-indexed floor of `log2` (the fuel `n` always suffices for the
argument `n`); used instead of `Nat.log2`, whose well-founded recursion
does not reduce inside the kernel. -/
def log2Aux : Nat → Nat → Nat
  | 0, _ => 0
  | fuel+1, n => if n < 2 then 0 else log2Aux fuel (n / 2) + 1

/-- Floor of the base-2 logarithm (0 for `n ≤ 1`). -/
def flog2 (n : Nat) : Nat := log2Aux n n

/-- Models Go's conversion `float64(n)` of a `uint64`, returning the exact
natural number the resulting float64 represents: round to the nearest
representable value (a multiple of `2^(⌊log2 n⌋ - 52)` once `n ≥ 2^53`),
ties to the even significand.  This conversion is fully specified by Go
(IEEE-754 round-to-nearest-even) and platform-independent. -/
def toFloat64Int (n : Nat) : Nat :=
  if n < 2 ^ 53 then n
  else
    let e := flog2 n - 52
    let u := 2 ^ e
    let q := n / u
    let r := n % u
    if 2 * r < u then q * u
    else if u < 2 * r then (q + 1) * u
    else if q % 2 = 0 then q * u else (q + 1) * u

/-- The exact numeric value a `Decimal` denotes, per the data model:
`sign × (integer_part + fractional_part / 10^fractional_digit_count)`. -/
def val (d : Decimal) : ℚ :=
  (if d.Negative then -1 else 1) *
    ((d.numerator : ℚ) + (d.denominator : ℚ) / (10 ^ d.denominatorDigits : ℚ))

/-! ### Sanity checks against the package's own test suite -/

example : ParseDecimal "-0.0".toList = .ok ⟨true, false, 0, 0, 1⟩ := by rfl
example : ParseDecimal "123".toList = .ok ⟨true, false, 123, 0, 0⟩ := by rfl
example : ParseDecimal "-.123".toList = .ok ⟨true, true, 0, 123, 3⟩ := by rfl
example : ParseDecimal "123.-456".toList = .error .malformed := by rfl
example : ParseDecimal "".toList = .error .malformed := by rfl
example : ParseDecimal "18446744073709551616".toList = .error .outOfRange := by rfl
example : (ParseDecimal "18446744073709551615".toList).map Decimal.numerator
    = .ok 18446744073709551615 := by rfl
example : Cmp ⟨true, true, 111, 333, 3⟩ ⟨true, true, 111, 222, 3⟩ = -1 := by decide
example : Cmp ⟨true, false, 111, 111, 3⟩ ⟨true, true, 222, 222, 3⟩ = 1 := by decide

example : Add ⟨true, false, 111, 555, 3⟩ ⟨true, false, 222, 222, 3⟩
    = (none, ⟨true, false, 333, 777, 3⟩, ⟨true, false, 222, 222, 3⟩) := by decide
example : (Add ⟨true, false, 111, 111, 3⟩ ⟨true, true, 111, 111, 3⟩).2.1
    = ⟨true, false, 0, 0, 1⟩ := by decide
example : DecString (Add ⟨true, false, 111, 555, 3⟩ ⟨true, false, 444999, 0, 0⟩).2.1
    = "445110.555" := by decide
example : (Add ⟨true, false, 111, 555, 3⟩ ⟨true, false, 111, 444999, 6⟩).2.1
    = ⟨true, false, 222, 999999, 6⟩ := by decide
example : (Add ⟨true, false, 0, 17446744073709551615, 20⟩ ⟨true, false, 0, 1, 2⟩).2.1
    = ⟨true, false, 0, 18446744073709551615, 20⟩ := by decide
example : (Add ⟨true, false, 18446744073709551615, 0, 1⟩ ⟨true, false, 1, 0, 1⟩).1
    = some .outOfRange := by decide
example : (Add ⟨true, false, 18446744073709551615, 5, 1⟩ ⟨true, false, 0, 5, 1⟩).1
    = some .outOfRange := by decide
example : (Add ⟨true, false, 0, 18446744073709551615, 20⟩ ⟨true, false, 0, 1, 20⟩).1
    = some .outOfRange := by decide

example : DecString (Sub ⟨true, false, 111, 111, 3⟩ ⟨true, false, 0, 999, 3⟩).2.1
    = "110.112" := by decide
example : (Sub ⟨true, false, 222, 222, 3⟩ ⟨true, false, 111, 111999, 6⟩).2.1
    = ⟨true, false, 111, 110001, 6⟩ := by decide
example : (Sub ⟨true, false, 111, 111999, 6⟩ ⟨true, false, 222, 222, 3⟩).2.1
    = ⟨true, true, 111, 110001, 6⟩ := by decide
example : (Sub ⟨true, true, 222, 222, 3⟩ ⟨true, true, 111, 111, 3⟩).2.1
    = ⟨true, true, 333, 333, 3⟩ := by decide

/-! ### Structural lemmas -/

theorem toDigitsCore_length_le (b : Nat) :
    ∀ (fuel n : Nat) (ds : List Char), ds.length ≤ (Nat.toDigitsCore b fuel n ds).length
  | 0, _, _ => le_refl _
  | fuel+1, n, ds => by
    unfold Nat.toDigitsCore
    dsimp only
    split
    · simp
    · exact le_trans (by simp) (toDigitsCore_length_le b fuel (n / b) _)

theorem printedLength_pos (n : Nat) : 0 < printedLength n := by
  unfold printedLength Nat.toDigits Nat.toDigitsCore
  dsimp only
  split
  · simp
  · exact lt_of_lt_of_le (by simp) (toDigitsCore_length_le 10 n (n / 10) _)

theorem commit_digits (c : Decimal) :
    (commit c).denominatorDigits = printedLength (commit c).denominator := rfl

/-- Every exit of `Add` either reports an error with both operands
untouched, or succeeds with a receiver that went through the final
zero-normalization and simplification and with `d2` untouched. -/
theorem Add_shape (d1 d2 : Decimal) :
    (∃ e, Add d1 d2 = (some e, d1, d2)) ∨
    (∃ c, Add d1 d2 = (none, commit (zeroFix c), d2)) := by
  unfold Add
  dsimp only
  repeat' split
  all_goals first
    | exact .inl ⟨_, rfl⟩
    | exact .inr ⟨_, rfl⟩

/-- Every exit of `Sub` either reports an error with both operands
untouched, or succeeds with a receiver that went through the final
simplification and with `d2` restored to its original state. -/
theorem Sub_shape (d1 d2 : Decimal) :
    (∃ e, Sub d1 d2 = (some e, d1, d2)) ∨
    (∃ c, Sub d1 d2 = (none, commit c, d2)) := by
  unfold Sub
  dsimp only
  split
  · exact .inl ⟨_, rfl⟩
  split
  · exact .inr ⟨_, rfl⟩
  rcases Add_shape d1 {d2 with Negative := d1.Negative} with ⟨e, hE⟩ | ⟨c, hC⟩
  · rw [hE]
    exact .inl ⟨e, by cases d2; rfl⟩
  · rw [hC]
    exact .inr ⟨zeroFix c, by cases d2; rfl⟩

theorem addW_zero {x : Nat} (h : x < U) : addW x 0 = x := by
  simp [addW, Nat.mod_eq_of_lt h]

theorem subW_zero {x : Nat} (h : x < U) : subW x 0 = x := by
  simp only [subW, Nat.zero_mod, Nat.sub_zero, Nat.add_mod_right]
  exact Nat.mod_eq_of_lt h

theorem mulW_one {x : Nat} (h : x < U) : mulW x 1 = x := by
  simp [mulW, Nat.mod_eq_of_lt h]

theorem mulW_zero_left (x : Nat) : mulW 0 x = 0 := by
  simp [mulW]

/-- The alignment step in closed form: both returned widths are the
maximum of the two operand widths, and each denominator is scaled by ten
to the power of its width deficit (in wrapping arithmetic). -/
theorem align_spec (d1 d2 : Decimal) (h1 : d1.denominator < U) (h2 : d2.denominator < U) :
    align d1 d2 =
      ({d1 with
          denominator := mulW d1.denominator
            (pow10 (max d1.denominatorDigits d2.denominatorDigits - d1.denominatorDigits)),
          denominatorDigits := max d1.denominatorDigits d2.denominatorDigits},
        mulW d2.denominator
          (pow10 (max d1.denominatorDigits d2.denominatorDigits - d2.denominatorDigits)),
        max d1.denominatorDigits d2.denominatorDigits) := by
  have p0 : pow10 0 = 1 := rfl
  unfold align
  rcases Nat.lt_trichotomy d2.denominatorDigits d1.denominatorDigits with h | h | h
  · rw [if_pos h]
    have hmax : max d1.denominatorDigits d2.denominatorDigits = d1.denominatorDigits := by omega
    rw [hmax, Nat.sub_self, p0, mulW_one h1]
  · rw [if_neg (by omega), if_neg (by omega)]
    have hmax : max d1.denominatorDigits d2.denominatorDigits = d1.denominatorDigits := by omega
    rw [hmax, Nat.sub_self, p0, mulW_one h1, h, Nat.sub_self, p0, mulW_one h2]
  · rw [if_neg (by omega), if_pos h]
    have hmax : max d1.denominatorDigits d2.denominatorDigits = d2.denominatorDigits := by omega
    rw [hmax, Nat.sub_self, p0, mulW_one h2]

/-! ### Claim theorems -/

/-- C1: refuted on the code.  Two equal-sign evaluations of `Sub` return
success with a value different from the exact difference `a - b`.
First, for two non-negative operands of unequal fractional width
(`222.222999 - 111.111`), the `Cmp ≥ 0` branch subtracts the *unaligned*
fractional part of `b`, producing `111.222888` instead of `111.111999`.
Second, for two negative operands (`-3 - (-2)`), `Sub` delegates to `Add`
with `b`'s sign set equal to `a`'s, so the magnitudes are *added*,
producing `-5.0` instead of `-1.0`. -/
theorem c1_sub_equal_signs_failing_eval :
    Sub ⟨true, false, 222, 222999, 6⟩ ⟨true, false, 111, 111, 3⟩
        = (none, ⟨true, false, 111, 222888, 6⟩, ⟨true, false, 111, 111, 3⟩) ∧
    val ⟨true, false, 111, 222888, 6⟩
        ≠ val ⟨true, false, 222, 222999, 6⟩ - val ⟨true, false, 111, 111, 3⟩ ∧
    val ⟨true, false, 222, 222999, 6⟩ - val ⟨true, false, 111, 111, 3⟩
        = val ⟨true, false, 111, 111999, 6⟩ ∧
    Sub ⟨true, true, 3, 0, 0⟩ ⟨true, true, 2, 0, 0⟩
        = (none, ⟨true, true, 5, 0, 1⟩, ⟨true, true, 2, 0, 0⟩) ∧
    val ⟨true, true, 5, 0, 1⟩ ≠ val ⟨true, true, 3, 0, 0⟩ - val ⟨true, true, 2, 0, 0⟩ ∧
    val ⟨true, true, 3, 0, 0⟩ - val ⟨true, true, 2, 0, 0⟩ = val ⟨true, true, 1, 0, 0⟩ := by
  refine ⟨by decide, ?_, ?_, by decide, ?_, ?_⟩ <;> norm_num [val]

/-- C2: refuted on the code.  `2.1 + (-1.9)` has the exact, representable
sum `0.2`, but the differing-signs branch of `Add` subtracts the fractional
parts with no borrow step: the fractional subtraction `1 - 9` wraps to
`2^64 - 8` and `Add` returns success with `1.18446744073709551608`. -/
theorem c2_add_differing_signs_failing_eval :
    Add ⟨true, false, 2, 1, 1⟩ ⟨true, true, 1, 9, 1⟩
        = (none, ⟨true, false, 1, 18446744073709551608, 20⟩, ⟨true, true, 1, 9, 1⟩) ∧
    val ⟨true, false, 2, 1, 1⟩ + val ⟨true, true, 1, 9, 1⟩ = val ⟨true, false, 0, 2, 1⟩ ∧
    val ⟨true, false, 1, 18446744073709551608, 20⟩
        ≠ val ⟨true, false, 2, 1, 1⟩ + val ⟨true, true, 1, 9, 1⟩ := by
  refine ⟨by decide, ?_, ?_⟩ <;> norm_num [val]

/-- C4: refuted on the code.  Folding the final digit of
`"184467440737095516159"` computes `10 * (2^64 - 1) + 9`, which exceeds
the `uint64` maximum, yet the wrapped value `10*(2^64-1)+9 mod 2^64` equals
the previous accumulator `2^64 - 1`, so the source's wrap-around test
`newN < *n` does not fire: `ParseDecimal` returns a valid `Decimal`
holding the silently truncated numerator `18446744073709551615` instead of
a range error. -/
theorem c4_parse_overflow_failing_eval :
    U ≤ 10 * 18446744073709551615 + 9 ∧
    ParseDecimal "184467440737095516159".toList
        = .ok ⟨true, false, 18446744073709551615, 0, 0⟩ := by
  exact ⟨by decide, by rfl⟩

/-- C6: refuted on the code.  Adding `0.00000000000000000001` (fractional
width 20) and `0.5` aligns widths by scaling `5` by `10^19`; the product
`5 * 10^19` exceeds the `uint64` maximum and wraps to
`13106511852580896768`, but the source never range-checks this
multiplication (its two wrap-around checks run on the *pre-alignment* raw
sums), so `Add` returns success with the garbage value
`0.13106511852580896769` instead of a range error. -/
theorem c6_alignment_overflow_failing_eval :
    U ≤ 5 * pow10 19 ∧
    Add ⟨true, false, 0, 1, 20⟩ ⟨true, false, 0, 5, 1⟩
        = (none, ⟨true, false, 0, 13106511852580896769, 20⟩, ⟨true, false, 0, 5, 1⟩) ∧
    val ⟨true, false, 0, 13106511852580896769, 20⟩
        ≠ val ⟨true, false, 0, 1, 20⟩ + val ⟨true, false, 0, 5, 1⟩ := by
  refine ⟨by decide, by decide, ?_⟩
  norm_num [val]

/-- C7: refuted on the code.  `printedLength` computes
`⌊log10(float64 n)⌋ + 1`, a function of the float64 image of `n` alone.
The IEEE-754 conversion (exactly modelled by `toFloat64Int`) maps both
`10^18 - 1` (18 digits) and `10^18` (19 digits) to the same float64, so no
choice of the remaining `log10`/`floor` pipeline can return the exact digit
count for both; the claim that `printedLength` is exact over the entire
`u64` range therefore fails. -/
theorem c7_printedLength_float_collision :
    (∀ f : Nat → Nat,
        f (toFloat64Int 999999999999999999) = f (toFloat64Int 1000000000000000000)) ∧
    printedLength 999999999999999999 = 18 ∧
    printedLength 1000000000000000000 = 19 := by
  refine ⟨fun f => congrArg f (by decide), by decide, by decide⟩

theorem data_append (a b : String) : (a ++ b).data = a.data ++ b.data := by
  rcases a with ⟨x⟩; rcases b with ⟨y⟩; rfl

theorem string_ext (a b : String) (h : a.data = b.data) : a = b := by
  rcases a with ⟨x⟩; rcases b with ⟨y⟩; exact congrArg String.mk h

/-- C5: confirmed.  Whenever `Add` or `Sub` returns an error (`not_valid`
or `range`), the receiver `d1` comes back exactly as it went in: `Add`
stages all work on `d1copy` and every error return precedes the commit,
while `Sub` either errors before touching `d1` or inherits the guarantee
from its delegation to `Add`. -/
theorem c5_error_leaves_receiver :
    (∀ (d1 d2 r1 r2 : Decimal) (e : Err), Add d1 d2 = (some e, r1, r2) → r1 = d1) ∧
    (∀ (d1 d2 r1 r2 : Decimal) (e : Err), Sub d1 d2 = (some e, r1, r2) → r1 = d1) := by
  constructor
  · intro d1 d2 r1 r2 e h
    rcases Add_shape d1 d2 with ⟨e', hE⟩ | ⟨c, hC⟩
    · rw [hE] at h
      exact (congrArg (fun p => p.2.1) h).symm
    · rw [hC] at h
      exact Option.noConfusion (congrArg Prod.fst h)
  · intro d1 d2 r1 r2 e h
    rcases Sub_shape d1 d2 with ⟨e', hE⟩ | ⟨c, hC⟩
    · rw [hE] at h
      exact (congrArg (fun p => p.2.1) h).symm
    · rw [hC] at h
      exact Option.noConfusion (congrArg Prod.fst h)

/-- C5 witness: a concrete erroring call (`18446744073709551615.0 + 1.0`
overflows the integer part) leaves the receiver unchanged. -/
theorem c5_error_leaves_receiver_witness :
    (⟨true, false, 18446744073709551615, 0, 1⟩ : Decimal)
      = ⟨true, false, 18446744073709551615, 0, 1⟩ :=
  c5_error_leaves_receiver.1 ⟨true, false, 18446744073709551615, 0, 1⟩
    ⟨true, false, 1, 0, 1⟩ ⟨true, false, 18446744073709551615, 0, 1⟩
    ⟨true, false, 1, 0, 1⟩ .outOfRange (by decide)

/-- C9: confirmed.  Whatever the outcome, the second operand `d2` is
returned exactly as it went in: `Add` and `Sub` flip `d2.Negative` only
transiently and restore it before every return. -/
theorem c9_argument_preserved (d1 d2 : Decimal) :
    (Add d1 d2).2.2 = d2 ∧ (Sub d1 d2).2.2 = d2 := by
  constructor
  · rcases Add_shape d1 d2 with ⟨e, hE⟩ | ⟨c, hC⟩
    · rw [hE]
    · rw [hC]
  · rcases Sub_shape d1 d2 with ⟨e, hE⟩ | ⟨c, hC⟩
    · rw [hE]
    · rw [hC]

/-- C10: confirmed.  Every `Decimal` produced by a successful `Add` or
`Sub` has been passed through `simplifyNumber`, so its stored fractional
digit-count equals the printed length of its (simplified) fractional part
and is in particular at least 1; a zero fractional part carries digit-count
1 and the rendering ends in `".0"`. -/
theorem c10_digit_count_invariant :
    (∀ (d1 d2 r r2 : Decimal), Add d1 d2 = (none, r, r2) →
      r.denominatorDigits = printedLength r.denominator ∧ 1 ≤ r.denominatorDigits ∧
      (r.denominator = 0 → r.denominatorDigits = 1 ∧ ∃ p, DecString r = p ++ ".0")) ∧
    (∀ (d1 d2 r r2 : Decimal), Sub d1 d2 = (none, r, r2) →
      r.denominatorDigits = printedLength r.denominator ∧ 1 ≤ r.denominatorDigits ∧
      (r.denominator = 0 → r.denominatorDigits = 1 ∧ ∃ p, DecString r = p ++ ".0")) := by
  have main : ∀ r : Decimal, r.denominatorDigits = printedLength r.denominator →
      r.denominatorDigits = printedLength r.denominator ∧ 1 ≤ r.denominatorDigits ∧
      (r.denominator = 0 → r.denominatorDigits = 1 ∧ ∃ p, DecString r = p ++ ".0") := by
    intro r hdd
    refine ⟨hdd, hdd ▸ printedLength_pos _, fun hz => ?_⟩
    have h1 : r.denominatorDigits = 1 := by rw [hdd, hz]; rfl
    refine ⟨h1, (if r.Negative then "-" else "") ++ natStr r.numerator, ?_⟩
    apply string_ext
    simp only [DecString, hz, h1, data_append, List.append_assoc]
    rfl
  constructor
  · intro d1 d2 r r2 h
    rcases Add_shape d1 d2 with ⟨e, hE⟩ | ⟨c, hC⟩
    · rw [hE] at h
      exact Option.noConfusion (congrArg Prod.fst h)
    · rw [hC] at h
      have hr : r = commit (zeroFix c) := (congrArg (fun p => p.2.1) h).symm
      exact hr ▸ main _ (commit_digits _)
  · intro d1 d2 r r2 h
    rcases Sub_shape d1 d2 with ⟨e, hE⟩ | ⟨c, hC⟩
    · rw [hE] at h
      exact Option.noConfusion (congrArg Prod.fst h)
    · rw [hC] at h
      have hr : r = commit c := (congrArg (fun p => p.2.1) h).symm
      exact hr ▸ main _ (commit_digits _)

/-- C10 witness: `1.5 + 2.5` succeeds with result `4.0`: digit-count 1
equals the printed length of the zero fractional part and the rendering
ends in `".0"`. -/
theorem c10_digit_count_invariant_witness :
    (⟨true, false, 4, 0, 1⟩ : Decimal).denominatorDigits
        = printedLength (⟨true, false, 4, 0, 1⟩ : Decimal).denominator ∧
      1 ≤ (⟨true, false, 4, 0, 1⟩ : Decimal).denominatorDigits ∧
      ((⟨true, false, 4, 0, 1⟩ : Decimal).denominator = 0 →
        (⟨true, false, 4, 0, 1⟩ : Decimal).denominatorDigits = 1 ∧
        ∃ p, DecString ⟨true, false, 4, 0, 1⟩ = p ++ ".0") :=
  c10_digit_count_invariant.1 ⟨true, false, 1, 5, 1⟩ ⟨true, false, 2, 5, 1⟩
    ⟨true, false, 4, 0, 1⟩ ⟨true, false, 2, 5, 1⟩ (by decide)

/-- C3: confirmed.  For same-sign operands (in `uint64` range, passing the
two pre-alignment range checks), whenever the aligned fractional sum `S`
prints longer than the aligned digit-count `w` and the carry does not
overflow, `Add` succeeds, adds `S / 10^w` into the integer part and
replaces the fractional part by `S % 10^w` (then normalizes and
simplifies); in particular `111.555 + 111.666` renders as `"223.221"` and
`111.555 + 111.645` renders as `"223.2"`. -/
theorem c3_add_carry :
    (∀ d1 d2 : Decimal, d1.Valid = true → d2.Valid = true →
      d1.Negative = d2.Negative →
      d1.numerator < U → d1.denominator < U → d2.numerator < U → d2.denominator < U →
      d1.denominator + d2.denominator < U →
      d1.numerator + d2.numerator < U →
      ∀ w S : Nat, w = max d1.denominatorDigits d2.denominatorDigits →
      S = addW (mulW d1.denominator (pow10 (w - d1.denominatorDigits)))
               (mulW d2.denominator (pow10 (w - d2.denominatorDigits))) →
      w < printedLength S →
      d1.numerator + d2.numerator + S / pow10 w < U →
      Add d1 d2 = (none, commit (zeroFix
        ⟨true, d1.Negative, d1.numerator + d2.numerator + S / pow10 w, S % pow10 w, w⟩), d2)) ∧
    Add ⟨true, false, 111, 555, 3⟩ ⟨true, false, 111, 666, 3⟩
      = (none, ⟨true, false, 223, 221, 3⟩, ⟨true, false, 111, 666, 3⟩) ∧
    DecString (Add ⟨true, false, 111, 555, 3⟩ ⟨true, false, 111, 666, 3⟩).2.1 = "223.221" ∧
    Add ⟨true, false, 111, 555, 3⟩ ⟨true, false, 111, 645, 3⟩
      = (none, ⟨true, false, 223, 2, 1⟩, ⟨true, false, 111, 645, 3⟩) ∧
    DecString (Add ⟨true, false, 111, 555, 3⟩ ⟨true, false, 111, 645, 3⟩).2.1 = "223.2" := by
  refine ⟨?_, by decide, by decide, by decide, by decide⟩
  intro d1 d2 hv1 hv2 hsgn hn1 hd1 hn2 hd2 hsd hsn w S hw hS hcarry hover
  subst hw
  subst hS
  have hvcond : ¬ ((!d1.Valid || !d2.Valid) = true) := by rw [hv1, hv2]; decide
  have hde : ¬ addW d1.denominator d2.denominator < d1.denominator := by
    unfold addW; rw [Nat.mod_eq_of_lt hsd]; omega
  have hnu : ¬ addW d1.numerator d2.numerator < d1.numerator := by
    unfold addW; rw [Nat.mod_eq_of_lt hsn]; omega
  have hplus : addW d1.numerator d2.numerator = d1.numerator + d2.numerator :=
    Nat.mod_eq_of_lt hsn
  unfold Add
  rw [if_neg hvcond, if_neg hde, if_neg hnu]
  dsimp only
  rw [align_spec d1 d2 hd1 hd2]
  dsimp only
  rw [if_pos hsgn, if_pos hcarry]
  have hc2 : addW (addW d1.numerator d2.numerator)
      (addW (mulW d1.denominator
          (pow10 (max d1.denominatorDigits d2.denominatorDigits - d1.denominatorDigits)))
        (mulW d2.denominator
          (pow10 (max d1.denominatorDigits d2.denominatorDigits - d2.denominatorDigits)))
        / pow10 (max d1.denominatorDigits d2.denominatorDigits))
      = d1.numerator + d2.numerator
        + addW (mulW d1.denominator
            (pow10 (max d1.denominatorDigits d2.denominatorDigits - d1.denominatorDigits)))
          (mulW d2.denominator
            (pow10 (max d1.denominatorDigits d2.denominatorDigits - d2.denominatorDigits)))
          / pow10 (max d1.denominatorDigits d2.denominatorDigits) := by
    rw [hplus]
    exact Nat.mod_eq_of_lt hover
  rw [hc2, hplus]
  rw [if_neg (Nat.not_lt.mpr (Nat.le_add_right _ _))]
  rw [hv1]

/-- C3 witness: the general carry statement instantiated at
`111.555 + 111.666` with aligned width 3 and fractional sum 1221. -/
theorem c3_add_carry_witness :
    Add ⟨true, false, 111, 555, 3⟩ ⟨true, false, 111, 666, 3⟩
      = (none, commit (zeroFix ⟨true, false, 111 + 111 + 1221 / pow10 3, 1221 % pow10 3, 3⟩),
         ⟨true, false, 111, 666, 3⟩) :=
  c3_add_carry.1 ⟨true, false, 111, 555, 3⟩ ⟨true, false, 111, 666, 3⟩ rfl rfl rfl
    (by decide) (by decide) (by decide) (by decide) (by decide) (by decide)
    3 1221 (by decide) (by decide) (by decide) (by decide)

/-- C8 counterexample: the claim fails as stated.  For `a = 1.05`
(numerator 1, denominator 5, digit-count 2) and `zero` parsed from `"0"`,
`a.Add(zero)` succeeds but shrinks the digit-count to 1 even though the
fractional part 5 carries no trailing zero to strip: the stored value
becomes `1.5`, a different number. -/
theorem c8_add_zero_counterexample :
    Add ⟨true, false, 1, 5, 2⟩ ⟨true, false, 0, 0, 0⟩
        = (none, ⟨true, false, 1, 5, 1⟩, ⟨true, false, 0, 0, 0⟩) ∧
    ParseDecimal "0".toList = .ok ⟨true, false, 0, 0, 0⟩ ∧
    ParseDecimal "1.05".toList = .ok ⟨true, false, 1, 5, 2⟩ ∧
    (5 : Nat) % 10 ≠ 0 ∧
    val ⟨true, false, 1, 5, 1⟩ ≠ val ⟨true, false, 1, 5, 2⟩ := by
  refine ⟨by decide, by rfl, by rfl, by decide, ?_⟩
  norm_num [val]

/-- C8 (amended): confirmed.  For every valid, in-range `a` whose stored
digit-count is consistent (`printedLength denominator ≤ max digits 1`, and
a zero digit-count only with a zero denominator) and which is not a
negative zero, `a.Add(zero)` succeeds, preserves validity, sign and
integer part, and replaces the fractional pair by
`simplifyNumber(denominator)`: trailing zeros are stripped *and* the
digit-count is recomputed as the printed length of the stripped value, so
leading-zero padding (as in `1.05`) is dropped and a digit-count of 0
becomes 1; `a.Add(zero) = a` exactly when the stored pair is already the
simplified one. -/
theorem c8_add_zero_amended :
    ParseDecimal "0".toList = .ok ⟨true, false, 0, 0, 0⟩ ∧
    ∀ a : Decimal, a.Valid = true →
      a.numerator < U → a.denominator < U →
      printedLength a.denominator ≤ max a.denominatorDigits 1 →
      (a.denominatorDigits = 0 → a.denominator = 0) →
      ¬(a.numerator = 0 ∧ a.denominator = 0 ∧ a.Negative = true) →
      Add a ⟨true, false, 0, 0, 0⟩ =
        (none, {a with denominator := (simplifyNumber a.denominator).1,
                       denominatorDigits := (simplifyNumber a.denominator).2},
         ⟨true, false, 0, 0, 0⟩) := by
  refine ⟨by rfl, ?_⟩
  intro a hv hnum hden hpl hdd0 hnz
  obtain ⟨V, N, nm, dn, w⟩ := a
  dsimp only at hv hnum hden hpl hdd0 hnz ⊢
  subst hv
  have hvcond :
      ¬ ((!(true : Bool) || !(⟨true, false, 0, 0, 0⟩ : Decimal).Valid) = true) := by decide
  have hde : ¬ addW dn 0 < dn := by rw [addW_zero hden]; omega
  have hnu : ¬ addW nm 0 < nm := by rw [addW_zero hnum]; omega
  unfold Add
  rw [if_neg hvcond, if_neg hde, if_neg hnu]
  dsimp only
  rw [align_spec ⟨true, N, nm, dn, w⟩ ⟨true, false, 0, 0, 0⟩ hden (by decide)]
  dsimp only
  have p0 : pow10 0 = 1 := rfl
  rw [Nat.max_zero, Nat.sub_self, mulW_zero_left]
  rw [p0, mulW_one hden]
  cases N with
  | false =>
    rw [if_pos rfl]
    rw [addW_zero hden, addW_zero hnum]
    by_cases hw : w = 0
    · subst hw
      have hd0 : dn = 0 := hdd0 rfl
      subst hd0
      rw [if_pos (by decide : (0 : Nat) < printedLength 0)]
      rw [p0, Nat.div_one, Nat.mod_one, addW_zero hnum]
      rw [if_neg (lt_irrefl nm)]
      unfold zeroFix
      rw [if_neg (by simp)]
      rfl
    · have hcar : ¬ (w < printedLength dn) := by
        have := Nat.max_eq_left (Nat.one_le_iff_ne_zero.mpr hw)
        omega
      rw [if_neg hcar]
      unfold zeroFix
      rw [if_neg (by simp)]
      rfl
  | true =>
    rw [if_neg (by decide : ¬ ((true : Bool) = false))]
    have hnz' : ¬ (nm = 0 ∧ dn = 0) := fun ⟨h1, h2⟩ => hnz ⟨h1, h2, rfl⟩
    have hcmp : (0 : Int) ≤ Cmp ⟨true, false, nm, dn, w⟩ ⟨true, false, 0, 0, 0⟩ := by
      unfold Cmp
      rw [if_pos rfl]
      dsimp only
      rw [if_neg hnz']
      rw [if_pos (by omega : 0 < nm ∨ (nm = 0 ∧ 0 < dn))]
      decide
    rw [if_pos hcmp]
    rw [subW_zero hden, subW_zero hnum]
    unfold zeroFix
    rw [if_neg (fun h => hnz' ⟨h.1, h.2.1⟩)]
    rfl

/-- C8 witness: the amended statement instantiated at `a = 1.50`
(digit-count 2, trailing zero): adding zero strips the trailing zero and
recomputes the digit-count, giving `1.5`. -/
theorem c8_add_zero_amended_witness :
    Add ⟨true, false, 1, 50, 2⟩ ⟨true, false, 0, 0, 0⟩
      = (none, ⟨true, false, 1, 5, 1⟩, ⟨true, false, 0, 0, 0⟩) :=
  c8_add_zero_amended.2 ⟨true, false, 1, 50, 2⟩ rfl (by decide) (by decide)
    (by decide) (by decide) (by decide)

end GoDecimal
